import Mathlib

/-!
Shallow embedding of `src/dsamcontroller/dsamcontroller.ino` (DSAM controller
firmware).  The 16-bit Arduino `word` registers `buttonWord`, `LEDWord` and
`pinsToSet` are modelled as `Nat` values kept below `2 ^ 16`; the Arduino
macros `bitRead`/`bitWrite` are modelled on `Nat` with an explicit 16-bit
mask for the clearing case, exactly as they behave on a 16-bit word.
`digitalWrite` and `delay` calls are recorded as an event trace
(`Ev.digitalWrite pin level`, `Ev.delay ms`); `HIGH`/`LOW` become
`true`/`false`.  Serial prints and `pinMode` calls are not observable state
and are not recorded.  `setup` performs no `digitalRead`, so its embedding
takes no input; the physical pin levels produced by a trace from an
arbitrary boot-time level assignment are computed by `applyWrites`.
-/

namespace DSAM

/-- Model of the electrical level HIGH (source: Arduino `HIGH`). -/
def HIGH : Bool := true

/-- Model of the electrical level LOW (source: Arduino `LOW`). -/
def LOW : Bool := false

-- constants from the source head (lines 27-45)
def buttonBounceDelay : Nat := 500
def actionIdx : Nat := 7
def nActions : Nat := 3
def modeIdx : Nat := 10
def nModes : Nat := 4
def optIdx : Nat := 14
def nOptions : Nat := 2
def purcgBit : Nat := 7
def loadBit : Nat := 8
def analyzeBit : Nat := 9
def discreteBit : Nat := 10
def septumBit : Nat := 11
def loopABit : Nat := 12
def loopBBit : Nat := 13
def diluteBit : Nat := 14
def standardBit : Nat := 15

-- pin maps (source lines 50-55); a 0 entry means no pin is wired there
def buttonPins : List Nat := [0, 0, 0, 0, 0, 0, 0, 22, 23, 24, 25, 26, 27, 28, 29, 37]
def LEDPins : List Nat := [0, 0, 0, 0, 0, 0, 0, 36, 35, 34, 33, 32, 31, 30, 53, 52]
def outPins : List Nat := [0, 0, 0, 0, 51, 50, 49, 48, 47, 46, 45, 44, 43, 42, 41, 40]

-- endian translation array (source line 59)
def lsb : List Nat := [15, 14, 13, 12, 11, 10, 9, 8, 7, 6, 5, 4, 3, 2, 1, 0]

/-- Index into the endian translation array `lsb` (the use sites always
index in range, `getD` default 0 is never reached there). -/
def lsbOf (p : Nat) : Nat := lsb.getD p 0

-- lookup tables (source lines 66-80)
def buttonSetsOneStep : List Nat :=
  [65247, 65263, 65271, 65275, 65375, 65391, 65399, 65403, 65439, 65455, 65463, 65467]
def setPinsOneStep : List Nat :=
  [64170, 64170, 63914, 64170, 63056, 64080, 64144, 63888, 64064, 64098, 63841, 64097]
def setLEDsDilute : List Nat := [65437, 65453, 65461, 65465]
def setPinsDilute1 : List Nat := [64170, 64170, 63914, 64170]
def setPinsDilute2 : List Nat := [64064, 64098, 63841, 64097]
def diluteDelay : Nat := 2000
def buttonSetsStandard : Nat := 65533
def setPinsStandard : Nat := 64140
def buttonSetStartup : Nat := 65399
def setPinsStartup : Nat := 64144

/-- Arduino `bitRead(w, b)`: the bit of `w` at LSB-first index `b`
(the macro yields 0 or 1; we model it as `Bool`, 1 = `true`). -/
def bitRead (w b : Nat) : Bool := w.testBit b

/-- Arduino `bitWrite(w, b, v)` on a 16-bit `word`: set (`v = HIGH`) or
clear (`v = LOW`) the bit at LSB-first index `b`.  Clearing uses the
16-bit complement mask, as the hardware word is 16 bits wide. -/
def bitWrite (w b : Nat) (v : Bool) : Nat :=
  if v then w ||| (1 <<< b) else w &&& (65535 ^^^ (1 <<< b))

/-- Observable side effects of the firmware: digital pin writes and delays. -/
inductive Ev where
  | digitalWrite (pin : Nat) (level : Bool)
  | delay (ms : Nat)
deriving DecidableEq, Repr

/-- The mutable machine registers (source lines 84-87; `lastbuttonState`
is saved and restored but never observably used, and is omitted). -/
structure MachState where
  buttonWord : Nat
  LEDWord : Nat
  pinsToSet : Nat
deriving DecidableEq, Repr

/-- `setOutputPins(pinWord)` (source lines 293-302): for each LSB-first bit
index `b`, read the plan bit; if the bit is 1 and the actuator entry is
nonzero write HIGH, otherwise write LOW — note the `else` branch issues a
`digitalWrite(..., LOW)` even when the actuator entry is 0 (absent). -/
def setOutputPins (pinWord : Nat) : List Ev :=
  (List.range 16).map fun b =>
    let bitValue := bitRead pinWord b
    if bitValue && (outPins.getD (lsb.getD b 0) 0 != 0) then
      Ev.digitalWrite (outPins.getD (lsb.getD b 0) 0) HIGH
    else
      Ev.digitalWrite (outPins.getD (lsb.getD b 0) 0) LOW

/-- The single-step table scan (source lines 181-185 and 208-212):
`for (i = 0; i < 12; i++) if (buttonWord == buttonSetsOneStep[i])
pinsToSet = setPinsOneStep[i];` starting from the current `pinsToSet`. -/
def lookupOneStep (bw p0 : Nat) : Nat :=
  (List.range 12).foldl
    (fun acc i => if bw = buttonSetsOneStep.getD i 0 then setPinsOneStep.getD i 0 else acc) p0

/-- The shared tail of the Action/Mode branch (source lines 208-215):
table lookup, then `setOutputPins(pinsToSet)` and the bounce delay. -/
def applySection (s : MachState) : MachState × List Ev :=
  let s1 : MachState := { s with pinsToSet := lookupOneStep s.buttonWord s.pinsToSet }
  (s1, setOutputPins s1.pinsToSet ++ [Ev.delay buttonBounceDelay])

/-- The group-exclusive selection shared (per the source's own TODO remark,
line 162, the Action and Mode branches differ only in the loop indices) by
the Action branch (source lines 166-177) and the Mode branch (lines
192-203): turn the pressed position's LED on and set its bit active (LOW)
in both words, then for every other position `i` in `[lo, lo+n)` turn its
LED off and set its bit inactive (HIGH) in both words. -/
def groupSelect (ipin lo n : Nat) (s : MachState) : MachState × List Ev :=
  let s0 : MachState :=
    { s with LEDWord := bitWrite s.LEDWord (lsbOf ipin) LOW,
             buttonWord := bitWrite s.buttonWord (lsbOf ipin) LOW }
  (List.range n).foldl
    (fun acc k =>
      let i := lo + k
      if i ≠ ipin then
        ({ acc.1 with buttonWord := bitWrite acc.1.buttonWord (lsbOf i) HIGH,
                      LEDWord := bitWrite acc.1.LEDWord (lsbOf i) HIGH },
         acc.2 ++ [Ev.digitalWrite (LEDPins.getD i 0) LOW])
      else acc)
    (s0, [Ev.digitalWrite (LEDPins.getD ipin 0) HIGH])

/-- The Standard branch (source lines 217-237): set Standard active, force
all 15 other positions inactive, then apply `setPinsStandard` directly —
without assigning it to `pinsToSet` — and hold for the bounce delay. -/
def handleStandard (s : MachState) : MachState × List Ev :=
  let s0 : MachState :=
    { s with LEDWord := bitWrite s.LEDWord (lsbOf standardBit) LOW,
             buttonWord := bitWrite s.buttonWord (lsbOf standardBit) LOW }
  let r :=
    (List.range 16).foldl
      (fun acc i =>
        if i ≠ standardBit then
          ({ acc.1 with buttonWord := bitWrite acc.1.buttonWord (lsbOf i) HIGH,
                        LEDWord := bitWrite acc.1.LEDWord (lsbOf i) HIGH },
           acc.2 ++ [Ev.digitalWrite (LEDPins.getD i 0) LOW])
        else acc)
      (s0, [Ev.digitalWrite (LEDPins.getD standardBit 0) HIGH])
  (r.1, r.2 ++ setOutputPins setPinsStandard ++ [Ev.delay buttonBounceDelay])

/-- The dilute mode-priority chain (source lines 247-266): the first active
Mode bit in the order discrete, septum, loop A, loop B, or -1 if none. -/
def diluteModeIndex (bw : Nat) : Int :=
  if !bitRead bw (lsbOf discreteBit) then 0
  else if !bitRead bw (lsbOf septumBit) then 1
  else if !bitRead bw (lsbOf loopABit) then 2
  else if !bitRead bw (lsbOf loopBBit) then 3
  else -1

/-- The Dilute branch (source lines 238-285): dilute LED on; if the Analyze
bit is active, select the mode index and, when one was found, apply the
phase-1 plan, hold `diluteDelay`, apply the phase-2 plan, hold the bounce
delay; otherwise reject with only the bounce delay; dilute LED off last. -/
def handleDilute (s : MachState) : MachState × List Ev :=
  let e0 := [Ev.digitalWrite (LEDPins.getD diluteBit 0) HIGH]
  if !bitRead s.buttonWord (lsbOf analyzeBit) then
    let i := diluteModeIndex s.buttonWord
    if 0 ≤ i then
      let s1 : MachState := { s with pinsToSet := setPinsDilute1.getD i.toNat 0 }
      let e1 := setOutputPins s1.pinsToSet ++ [Ev.delay diluteDelay]
      let s2 : MachState := { s1 with pinsToSet := setPinsDilute2.getD i.toNat 0 }
      let e2 := setOutputPins s2.pinsToSet ++ [Ev.delay buttonBounceDelay]
      (s2, e0 ++ e1 ++ e2 ++ [Ev.digitalWrite (LEDPins.getD diluteBit 0) LOW])
    else
      (s, e0 ++ [Ev.digitalWrite (LEDPins.getD diluteBit 0) LOW])
  else
    (s, e0 ++ [Ev.delay buttonBounceDelay, Ev.digitalWrite (LEDPins.getD diluteBit 0) LOW])

/-- The Standard-clear guard (source lines 155-159): if the Standard
indicator bit is on (`LEDWord` bit = 0), turn the Standard LED off and set
the Standard bit inactive (HIGH) in both `LEDWord` and `buttonWord`. -/
def standardClearGuard (s : MachState) : MachState × List Ev :=
  if !bitRead s.LEDWord (lsbOf standardBit) then
    ({ s with LEDWord := bitWrite s.LEDWord (lsbOf standardBit) HIGH,
              buttonWord := bitWrite s.buttonWord (lsbOf standardBit) HIGH },
     [Ev.digitalWrite (LEDPins.getD standardBit 0) LOW])
  else (s, [])

/-- The branch decision tree of `loop()` after the guard (source lines
161-285).  For an Action press the lookup/apply/delay tail runs once inside
the Action branch (lines 181-188) and then again in the shared tail (lines
208-215), exactly as the braces of the source nest it. -/
def dispatch (ipin : Nat) (s : MachState) : MachState × List Ev :=
  if actionIdx ≤ ipin ∧ ipin < actionIdx + nActions + nModes then
    let r1 :=
      if actionIdx ≤ ipin ∧ ipin < actionIdx + nActions then
        let ra := groupSelect ipin actionIdx nActions s
        let rb := applySection ra.1
        (rb.1, ra.2 ++ rb.2)
      else if modeIdx ≤ ipin ∧ ipin < modeIdx + nModes then
        groupSelect ipin modeIdx nModes s
      else (s, [])
    let r2 := applySection r1.1
    (r2.1, r1.2 ++ r2.2)
  else if ipin = standardBit then handleStandard s
  else if ipin = diluteBit then handleDilute s
  else (s, [])

/-- Processing of one scanned position whose button reads LOW (pressed):
the body of `if (buttonState == LOW)` in `loop()` (source lines 149-286),
i.e. the Standard-clear guard followed by the branch decision tree. -/
def pressButton (ipin : Nat) (s : MachState) : MachState × List Ev :=
  let g := standardClearGuard s
  let r := dispatch ipin g.1
  (r.1, g.2 ++ r.2)

/-- `setup()` (source lines 93-136): global initializers, the two pin-init
loops, the two-second settle delay, the Load and Loop-A LEDs on, the
assignment of the Startup constants to all three registers, and the
application of the Startup plan.  `setup` contains no `digitalRead`, so
its result does not depend on any button's boot-time physical level. -/
def setupRun : MachState × List Ev :=
  let s0 : MachState := { buttonWord := 65535, LEDWord := 0, pinsToSet := 0 }
  let r1 :=
    (List.range (16 - actionIdx)).foldl
      (fun acc k =>
        let ipin := actionIdx + k
        ({ acc.1 with buttonWord := bitWrite acc.1.buttonWord (lsbOf ipin) HIGH,
                      LEDWord := bitWrite acc.1.LEDWord (lsbOf ipin) HIGH },
         acc.2 ++ [Ev.digitalWrite (buttonPins.getD ipin 0) HIGH,
                   Ev.digitalWrite (LEDPins.getD ipin 0) LOW]))
      (s0, [])
  let r2 :=
    (List.range 12).foldl
      (fun acc k =>
        let ipin := 4 + k
        ({ acc.1 with pinsToSet := bitWrite acc.1.pinsToSet (lsbOf ipin) HIGH },
         acc.2 ++ [Ev.digitalWrite (outPins.getD ipin 0) HIGH]))
      r1
  let e3 := r2.2 ++ [Ev.delay 2000,
                     Ev.digitalWrite (LEDPins.getD loadBit 0) HIGH,
                     Ev.digitalWrite (LEDPins.getD loopABit 0) HIGH]
  let s4 : MachState := { buttonWord := buttonSetStartup, LEDWord := buttonSetStartup,
                          pinsToSet := setPinsStartup }
  (s4, e3 ++ setOutputPins s4.pinsToSet)

/-- The machine registers at the end of `setup()`. -/
def setupMachState : MachState := setupRun.1

/-- Replay the `digitalWrite` events of a trace over an initial assignment
of physical levels to pins, yielding the final physical levels. -/
def applyWrites (evs : List Ev) (pins : Nat → Bool) : Nat → Bool :=
  evs.foldl
    (fun ps e =>
      match e with
      | Ev.digitalWrite p v => fun q => if q = p then v else ps q
      | Ev.delay _ => ps) pins

/-- States reachable from the end of `setup()` by processing button
presses at the scanned positions `actionIdx`..15. -/
inductive Reachable : MachState → Prop where
  | start : Reachable setupMachState
  | step (s : MachState) (ipin : Nat) : Reachable s → actionIdx ≤ ipin → ipin < 16 →
      Reachable (pressButton ipin s).1

/-- Number of active (0) bits of a word among the logical positions
`lo`, ..., `lo + n - 1` (positions are MSB-first, read via `lsb`). -/
def activeCount (w lo n : Nat) : Nat :=
  ((List.range n).map (fun k => if bitRead w (lsbOf (lo + k)) then 0 else 1)).sum

/-! Helper lemmas: projections of the press handlers to the two words,
and elementary bit-level facts. -/

theorem land_or_self (w m : Nat) : (w &&& m) ||| m = m := by
  apply Nat.eq_of_testBit_eq
  intro i
  simp only [Nat.testBit_or, Nat.testBit_and]
  cases Nat.testBit w i <;> cases Nat.testBit m i <;> rfl

theorem handleStandard_buttonWord (s : MachState) :
    (handleStandard s).1.buttonWord = 65534 := by
  have h16 : List.range 16 = [0,1,2,3,4,5,6,7,8,9,10,11,12,13,14,15] := by decide
  simp [handleStandard, h16, standardBit, lsbOf, lsb, LEDPins, bitWrite, HIGH, LOW,
        Nat.or_assoc, land_or_self]

theorem handleStandard_LEDWord (s : MachState) :
    (handleStandard s).1.LEDWord = 65534 := by
  have h16 : List.range 16 = [0,1,2,3,4,5,6,7,8,9,10,11,12,13,14,15] := by decide
  simp [handleStandard, h16, standardBit, lsbOf, lsb, LEDPins, bitWrite, HIGH, LOW,
        Nat.or_assoc, land_or_self]

theorem pressButton_bw_7 (s : MachState) : (pressButton 7 s).1.buttonWord =
    bitWrite (bitWrite (bitWrite (standardClearGuard s).1.buttonWord 8 false) 7 true) 6 true := rfl

theorem pressButton_bw_8 (s : MachState) : (pressButton 8 s).1.buttonWord =
    bitWrite (bitWrite (bitWrite (standardClearGuard s).1.buttonWord 7 false) 8 true) 6 true := rfl

theorem pressButton_bw_9 (s : MachState) : (pressButton 9 s).1.buttonWord =
    bitWrite (bitWrite (bitWrite (standardClearGuard s).1.buttonWord 6 false) 8 true) 7 true := rfl

theorem pressButton_bw_10 (s : MachState) : (pressButton 10 s).1.buttonWord =
    bitWrite (bitWrite (bitWrite (bitWrite (standardClearGuard s).1.buttonWord 5 false) 4 true) 3 true) 2 true := rfl

theorem pressButton_bw_11 (s : MachState) : (pressButton 11 s).1.buttonWord =
    bitWrite (bitWrite (bitWrite (bitWrite (standardClearGuard s).1.buttonWord 4 false) 5 true) 3 true) 2 true := rfl

theorem pressButton_bw_12 (s : MachState) : (pressButton 12 s).1.buttonWord =
    bitWrite (bitWrite (bitWrite (bitWrite (standardClearGuard s).1.buttonWord 3 false) 5 true) 4 true) 2 true := rfl

theorem pressButton_bw_13 (s : MachState) : (pressButton 13 s).1.buttonWord =
    bitWrite (bitWrite (bitWrite (bitWrite (standardClearGuard s).1.buttonWord 2 false) 5 true) 4 true) 3 true := rfl

theorem pressButton_bw_14 (s : MachState) :
    (pressButton 14 s).1.buttonWord = (standardClearGuard s).1.buttonWord := by
  simp [pressButton, dispatch, handleDilute, diluteBit, standardBit, actionIdx, nActions,
    modeIdx, nModes]
  split <;> [skip; rfl]
  split <;> rfl

theorem pressButton_bw_15 (s : MachState) : (pressButton 15 s).1.buttonWord = 65534 :=
  handleStandard_buttonWord (standardClearGuard s).1

theorem pressButton_lw_7 (s : MachState) : (pressButton 7 s).1.LEDWord =
    bitWrite (bitWrite (bitWrite (standardClearGuard s).1.LEDWord 8 false) 7 true) 6 true := rfl

theorem pressButton_lw_8 (s : MachState) : (pressButton 8 s).1.LEDWord =
    bitWrite (bitWrite (bitWrite (standardClearGuard s).1.LEDWord 7 false) 8 true) 6 true := rfl

theorem pressButton_lw_9 (s : MachState) : (pressButton 9 s).1.LEDWord =
    bitWrite (bitWrite (bitWrite (standardClearGuard s).1.LEDWord 6 false) 8 true) 7 true := rfl

theorem pressButton_lw_10 (s : MachState) : (pressButton 10 s).1.LEDWord =
    bitWrite (bitWrite (bitWrite (bitWrite (standardClearGuard s).1.LEDWord 5 false) 4 true) 3 true) 2 true := rfl

theorem pressButton_lw_11 (s : MachState) : (pressButton 11 s).1.LEDWord =
    bitWrite (bitWrite (bitWrite (bitWrite (standardClearGuard s).1.LEDWord 4 false) 5 true) 3 true) 2 true := rfl

theorem pressButton_lw_12 (s : MachState) : (pressButton 12 s).1.LEDWord =
    bitWrite (bitWrite (bitWrite (bitWrite (standardClearGuard s).1.LEDWord 3 false) 5 true) 4 true) 2 true := rfl

theorem pressButton_lw_13 (s : MachState) : (pressButton 13 s).1.LEDWord =
    bitWrite (bitWrite (bitWrite (bitWrite (standardClearGuard s).1.LEDWord 2 false) 5 true) 4 true) 3 true := rfl

theorem pressButton_lw_14 (s : MachState) :
    (pressButton 14 s).1.LEDWord = (standardClearGuard s).1.LEDWord := by
  simp [pressButton, dispatch, handleDilute, diluteBit, standardBit, actionIdx, nActions,
    modeIdx, nModes]
  split <;> [skip; rfl]
  split <;> rfl

theorem pressButton_lw_15 (s : MachState) : (pressButton 15 s).1.LEDWord = 65534 :=
  handleStandard_LEDWord (standardClearGuard s).1

theorem activeCount_action (w : Nat) : activeCount w actionIdx nActions =
    (if bitRead w 8 then 0 else 1) +
      ((if bitRead w 7 then 0 else 1) + ((if bitRead w 6 then 0 else 1) + 0)) := rfl

theorem activeCount_mode (w : Nat) : activeCount w modeIdx nModes =
    (if bitRead w 5 then 0 else 1) +
      ((if bitRead w 4 then 0 else 1) +
        ((if bitRead w 3 then 0 else 1) + ((if bitRead w 2 then 0 else 1) + 0))) := rfl

set_option maxHeartbeats 2000000 in
theorem pressButton_counts (s : MachState) (ipin : Nat)
    (h7 : actionIdx ≤ ipin) (h16 : ipin < 16)
    (hA : activeCount s.buttonWord actionIdx nActions ≤ 1)
    (hM : activeCount s.buttonWord modeIdx nModes ≤ 1) :
    activeCount (pressButton ipin s).1.buttonWord actionIdx nActions ≤ 1 ∧
    activeCount (pressButton ipin s).1.buttonWord modeIdx nModes ≤ 1 := by
  rcases Bool.eq_false_or_eq_true (bitRead s.LEDWord (lsbOf standardBit)) with hg | hg <;>
    interval_cases ipin <;>
    refine ⟨?_, ?_⟩ <;>
    simp_all +decide [pressButton_bw_7, pressButton_bw_8, pressButton_bw_9, pressButton_bw_10,
      pressButton_bw_11, pressButton_bw_12, pressButton_bw_13, pressButton_bw_14,
      pressButton_bw_15, standardClearGuard, activeCount_action, activeCount_mode,
      bitRead, bitWrite, lsbOf, lsb, standardBit, HIGH, LOW]

theorem reachable_counts (s : MachState) (h : Reachable s) :
    activeCount s.buttonWord actionIdx nActions ≤ 1 ∧
    activeCount s.buttonWord modeIdx nModes ≤ 1 := by
  induction h with
  | start => exact ⟨by decide, by decide⟩
  | step s ipin hr h7 h16 ih => exact pressButton_counts s ipin h7 h16 ih.1 ih.2

theorem guard_words_eq (s : MachState) (h : s.LEDWord = s.buttonWord) :
    (standardClearGuard s).1.LEDWord = (standardClearGuard s).1.buttonWord := by
  unfold standardClearGuard
  split <;> simp [h]

theorem pressButton_words_eq (s : MachState) (ipin : Nat)
    (h7 : actionIdx ≤ ipin) (h16 : ipin < 16) (h : s.LEDWord = s.buttonWord) :
    (pressButton ipin s).1.LEDWord = (pressButton ipin s).1.buttonWord := by
  have hg := guard_words_eq s h
  have h7l : 7 ≤ ipin := h7
  interval_cases ipin <;>
    simp [pressButton_bw_7, pressButton_lw_7, pressButton_bw_8, pressButton_lw_8,
      pressButton_bw_9, pressButton_lw_9, pressButton_bw_10, pressButton_lw_10,
      pressButton_bw_11, pressButton_lw_11, pressButton_bw_12, pressButton_lw_12,
      pressButton_bw_13, pressButton_lw_13, pressButton_bw_14, pressButton_lw_14,
      pressButton_bw_15, pressButton_lw_15, hg]

theorem reachable_words_eq (s : MachState) (h : Reachable s) : s.LEDWord = s.buttonWord := by
  induction h with
  | start => rfl
  | step s ipin hr h7 h16 ih => exact pressButton_words_eq s ipin h7 h16 ih

theorem handleDilute_bw (t : MachState) : (handleDilute t).1.buttonWord = t.buttonWord := by
  simp [handleDilute]
  split <;> [skip; rfl]
  split <;> rfl

theorem handleDilute_lw (t : MachState) : (handleDilute t).1.LEDWord = t.LEDWord := by
  simp [handleDilute]
  split <;> [skip; rfl]
  split <;> rfl

theorem guard_bw_bit (s : MachState) (i : Nat) (hi : i ≠ 0) :
    bitRead (standardClearGuard s).1.buttonWord i = bitRead s.buttonWord i := by
  have h1 : Nat.testBit 1 i = false := by
    rcases Bool.eq_false_or_eq_true (Nat.testBit 1 i) with hb | hb
    · exact absurd (Nat.testBit_one_eq_true_iff_self_eq_zero.mp hb) hi
    · exact hb
  unfold standardClearGuard
  split
  · simp [bitRead, bitWrite, lsbOf, lsb, standardBit, HIGH, h1]
  · rfl

theorem handleDilute_reject (t : MachState)
    (h : bitRead t.buttonWord (lsbOf analyzeBit) = true) :
    handleDilute t =
      (t, [Ev.digitalWrite 53 HIGH, Ev.delay buttonBounceDelay, Ev.digitalWrite 53 LOW]) := by
  have h6 : bitRead t.buttonWord 6 = true := by simpa [lsbOf, lsb, analyzeBit] using h
  unfold handleDilute
  simp +decide [h6, lsbOf, lsb, analyzeBit, diluteBit, LEDPins]

theorem handleDilute_accept (t : MachState) (m : Nat)
    (hA : bitRead t.buttonWord (lsbOf analyzeBit) = false)
    (hi : diluteModeIndex t.buttonWord = (m : Int)) :
    handleDilute t =
      ({ t with pinsToSet := setPinsDilute2.getD m 0 },
       [Ev.digitalWrite 53 HIGH] ++ setOutputPins (setPinsDilute1.getD m 0) ++
         [Ev.delay diluteDelay] ++ setOutputPins (setPinsDilute2.getD m 0) ++
         [Ev.delay buttonBounceDelay] ++ [Ev.digitalWrite 53 LOW]) := by
  have h6 : bitRead t.buttonWord 6 = false := by simpa [lsbOf, lsb, analyzeBit] using hA
  unfold handleDilute
  simp +decide [h6, hi, lsbOf, lsb, analyzeBit, diluteBit, LEDPins]

theorem handleDilute_noMode (t : MachState)
    (hA : bitRead t.buttonWord (lsbOf analyzeBit) = false)
    (hi : diluteModeIndex t.buttonWord = -1) :
    handleDilute t = (t, [Ev.digitalWrite 53 HIGH, Ev.digitalWrite 53 LOW]) := by
  have h6 : bitRead t.buttonWord 6 = false := by simpa [lsbOf, lsb, analyzeBit] using hA
  unfold handleDilute
  simp +decide [h6, hi, lsbOf, lsb, analyzeBit, diluteBit, LEDPins]

theorem guard_pinsToSet (s : MachState) :
    (standardClearGuard s).1.pinsToSet = s.pinsToSet := by
  unfold standardClearGuard
  split <;> rfl

theorem guard_events (s : MachState) :
    (standardClearGuard s).2 = [] ∨ (standardClearGuard s).2 = [Ev.digitalWrite 52 LOW] := by
  unfold standardClearGuard
  split
  · right; simp [LEDPins, standardBit]
  · left; rfl

theorem pressButton_dilute_eq (s : MachState) :
    pressButton diluteBit s =
      ((handleDilute (standardClearGuard s).1).1,
       (standardClearGuard s).2 ++ (handleDilute (standardClearGuard s).1).2) := rfl

theorem setOutputPins_getD (plan b : Nat) (hb : b < 16) :
    (setOutputPins plan).getD b (Ev.delay 0) =
      if bitRead plan b && (outPins.getD (lsb.getD b 0) 0 != 0) then
        Ev.digitalWrite (outPins.getD (lsb.getD b 0) 0) HIGH
      else Ev.digitalWrite (outPins.getD (lsb.getD b 0) 0) LOW := by
  interval_cases b <;> rfl

/-- True when the trace contains a `digitalWrite` to one of the wired
actuator pins (the nonzero entries of `outPins`). -/
def writesActuatorPin (evs : List Ev) : Bool :=
  evs.any fun e =>
    match e with
    | Ev.digitalWrite p _ => (outPins.filter (fun q => q != 0)).contains p
    | Ev.delay _ => false

/-! Claim theorems. -/

/-- C1 (counterexample): the claim says `setOutputPins` performs no output
write at all for a position whose actuator entry is absent (`outPins` value
0).  Position 0 is such a position, yet on the Startup plan the write trace
of `setOutputPins` contains — at the iteration handling position 0, index
15 — a `digitalWrite` of LOW to pin number 0: the `else` branch of the
source writes unconditionally. -/
theorem C1_counterexample :
    outPins.getD 0 0 = 0 ∧
    (setOutputPins setPinsStartup).getD 15 (Ev.delay 0) = Ev.digitalWrite 0 LOW ∧
    (setOutputPins setPinsStartup).length = 16 := by decide

/-- C1 (amended): for every 16-bit plan and logical position `p < 16`, the
write issued by `setOutputPins` for position `p` (at trace index `15 - p`)
drives the wired actuator `outPins[p]` to HIGH exactly when the plan bit at
that position (read via the bit-order adapter `lsb`) is 1 and to LOW when
it is 0; for a position with no wired actuator it does not skip but issues
a `digitalWrite` of LOW to pin number 0 (the absent marker), regardless of
the plan bit. -/
theorem C1_output_driver_amended (plan p : Nat) (hp : p < 16) :
    (setOutputPins plan).getD (15 - p) (Ev.delay 0) =
      (if outPins.getD p 0 = 0 then Ev.digitalWrite 0 LOW
       else Ev.digitalWrite (outPins.getD p 0) (bitRead plan (lsbOf p))) := by
  interval_cases p <;>
    rw [setOutputPins_getD plan _ (by norm_num)] <;>
    cases hb : bitRead plan _ <;>
    simp_all [lsbOf, lsb, outPins, HIGH, LOW]

theorem C1_output_driver_witness :
    (4 : Nat) < 16 ∧
    (setOutputPins setPinsStartup).getD (15 - 4) (Ev.delay 0) =
      (if outPins.getD 4 0 = 0 then Ev.digitalWrite 0 LOW
       else Ev.digitalWrite (outPins.getD 4 0) (bitRead setPinsStartup (lsbOf 4))) :=
  ⟨by decide, C1_output_driver_amended setPinsStartup 4 (by decide)⟩

/-- C2 (counterexample): the claim says that whenever the dilute button is
pressed with the Analyze bit not active, `buttonWord` is bit-for-bit
unchanged.  In the reachable state right after a Standard press from
startup, Analyze is not active (its bit reads 1), yet pressing dilute
changes `buttonWord`: the Standard-clear guard runs first and sets the
Standard bit inactive. -/
theorem C2_counterexample :
    bitRead (pressButton standardBit setupMachState).1.buttonWord (lsbOf analyzeBit) = true ∧
    (pressButton diluteBit (pressButton standardBit setupMachState).1).1.buttonWord ≠
      (pressButton standardBit setupMachState).1.buttonWord := by decide

/-- C2 (amended): for every machine state in which the dilute button reads
active while the Analyze bit is not active, the press is rejected: the
resulting state is exactly the output of the Standard-clear guard (so
`buttonWord` and `LEDWord` change only by the guard clearing the Standard
bit when the Standard indicator was on), `pinsToSet` is unchanged, and no
wired actuator pin is written — hence a dilute-phase plan is applied only
if Analyze is active at the moment of the press. -/
theorem C2_dilute_gating_amended (s : MachState)
    (hA : bitRead s.buttonWord (lsbOf analyzeBit) = true) :
    (pressButton diluteBit s).1 = (standardClearGuard s).1 ∧
    (standardClearGuard s).1.pinsToSet = s.pinsToSet ∧
    writesActuatorPin (pressButton diluteBit s).2 = false := by
  have hA1 : bitRead (standardClearGuard s).1.buttonWord (lsbOf analyzeBit) = true := by
    rw [show lsbOf analyzeBit = 6 from rfl] at hA ⊢
    rw [guard_bw_bit s 6 (by decide)]
    exact hA
  have hrej := handleDilute_reject (standardClearGuard s).1 hA1
  refine ⟨?_, guard_pinsToSet s, ?_⟩
  · rw [pressButton_dilute_eq, hrej]
  · rw [pressButton_dilute_eq, hrej]
    rcases guard_events s with h | h <;> rw [h] <;> simp +decide [writesActuatorPin]

theorem C2_dilute_gating_witness :
    bitRead ({ buttonWord := 65535, LEDWord := 65535, pinsToSet := 7 } :
      MachState).buttonWord (lsbOf analyzeBit) = true ∧
    (pressButton diluteBit { buttonWord := 65535, LEDWord := 65535, pinsToSet := 7 }).1 =
      (standardClearGuard { buttonWord := 65535, LEDWord := 65535, pinsToSet := 7 }).1 :=
  ⟨by decide,
   (C2_dilute_gating_amended { buttonWord := 65535, LEDWord := 65535, pinsToSet := 7 }
      (by decide)).1⟩

/-- C3: for every state in which the dilute button reads active and the
Analyze bit is active, the Mode bit is selected in the fixed priority
order Discrete (10), Septum (11), Loop A (12), Loop B (13): if `m` is the
first position in that order whose bit is active, the press applies the
phase-1 plan `setPinsDilute1[m]`, delays `diluteDelay` (2000), applies the
phase-2 plan `setPinsDilute2[m]`, and delays the bounce delay — in that
order, with no phase skipped — leaving `pinsToSet = setPinsDilute2[m]`;
if none of the four Mode bits is active, no further action is taken: the
state equals the guard output and only the dilute LED flashes. -/
theorem C3_dilute_sequence (s : MachState)
    (hA : bitRead s.buttonWord (lsbOf analyzeBit) = false) :
    (∀ m, m < 4 →
      bitRead s.buttonWord (lsbOf (modeIdx + m)) = false →
      (∀ j, j < m → bitRead s.buttonWord (lsbOf (modeIdx + j)) = true) →
      (pressButton diluteBit s).1.pinsToSet = setPinsDilute2.getD m 0 ∧
      (pressButton diluteBit s).2 =
        (standardClearGuard s).2 ++
          ([Ev.digitalWrite 53 HIGH] ++ setOutputPins (setPinsDilute1.getD m 0) ++
            [Ev.delay diluteDelay] ++ setOutputPins (setPinsDilute2.getD m 0) ++
            [Ev.delay buttonBounceDelay] ++ [Ev.digitalWrite 53 LOW])) ∧
    ((∀ m, m < 4 → bitRead s.buttonWord (lsbOf (modeIdx + m)) = true) →
      (pressButton diluteBit s).1 = (standardClearGuard s).1 ∧
      (pressButton diluteBit s).2 =
        (standardClearGuard s).2 ++ [Ev.digitalWrite 53 HIGH, Ev.digitalWrite 53 LOW]) := by
  have hA1 : bitRead (standardClearGuard s).1.buttonWord (lsbOf analyzeBit) = false := by
    rw [show lsbOf analyzeBit = 6 from rfl] at hA ⊢
    rw [guard_bw_bit s 6 (by decide)]
    exact hA
  have t5 := guard_bw_bit s 5 (by decide)
  have t4 := guard_bw_bit s 4 (by decide)
  have t3 := guard_bw_bit s 3 (by decide)
  have t2 := guard_bw_bit s 2 (by decide)
  constructor
  · intro m hm hact hpri
    interval_cases m
    · have h5 : bitRead s.buttonWord 5 = false := by
        simpa [lsbOf, lsb, modeIdx] using hact
      have hi : diluteModeIndex (standardClearGuard s).1.buttonWord = ((0 : Nat) : Int) := by
        simp [diluteModeIndex, lsbOf, lsb, discreteBit, t5, h5]
      rw [pressButton_dilute_eq, handleDilute_accept _ 0 hA1 hi]
      exact ⟨rfl, rfl⟩
    · have h5 : bitRead s.buttonWord 5 = true := by
        simpa [lsbOf, lsb, modeIdx] using hpri 0 (by norm_num)
      have h4 : bitRead s.buttonWord 4 = false := by
        simpa [lsbOf, lsb, modeIdx] using hact
      have hi : diluteModeIndex (standardClearGuard s).1.buttonWord = ((1 : Nat) : Int) := by
        simp [diluteModeIndex, lsbOf, lsb, discreteBit, septumBit, t5, t4, h5, h4]
      rw [pressButton_dilute_eq, handleDilute_accept _ 1 hA1 hi]
      exact ⟨rfl, rfl⟩
    · have h5 : bitRead s.buttonWord 5 = true := by
        simpa [lsbOf, lsb, modeIdx] using hpri 0 (by norm_num)
      have h4 : bitRead s.buttonWord 4 = true := by
        simpa [lsbOf, lsb, modeIdx] using hpri 1 (by norm_num)
      have h3 : bitRead s.buttonWord 3 = false := by
        simpa [lsbOf, lsb, modeIdx] using hact
      have hi : diluteModeIndex (standardClearGuard s).1.buttonWord = ((2 : Nat) : Int) := by
        simp [diluteModeIndex, lsbOf, lsb, discreteBit, septumBit, loopABit, t5, t4, t3, h5, h4, h3]
      rw [pressButton_dilute_eq, handleDilute_accept _ 2 hA1 hi]
      exact ⟨rfl, rfl⟩
    · have h5 : bitRead s.buttonWord 5 = true := by
        simpa [lsbOf, lsb, modeIdx] using hpri 0 (by norm_num)
      have h4 : bitRead s.buttonWord 4 = true := by
        simpa [lsbOf, lsb, modeIdx] using hpri 1 (by norm_num)
      have h3 : bitRead s.buttonWord 3 = true := by
        simpa [lsbOf, lsb, modeIdx] using hpri 2 (by norm_num)
      have h2 : bitRead s.buttonWord 2 = false := by
        simpa [lsbOf, lsb, modeIdx] using hact
      have hi : diluteModeIndex (standardClearGuard s).1.buttonWord = ((3 : Nat) : Int) := by
        simp [diluteModeIndex, lsbOf, lsb, discreteBit, septumBit, loopABit, loopBBit,
          t5, t4, t3, t2, h5, h4, h3, h2]
      rw [pressButton_dilute_eq, handleDilute_accept _ 3 hA1 hi]
      exact ⟨rfl, rfl⟩
  · intro hall
    have h5 : bitRead s.buttonWord 5 = true := by
      simpa [lsbOf, lsb, modeIdx] using hall 0 (by norm_num)
    have h4 : bitRead s.buttonWord 4 = true := by
      simpa [lsbOf, lsb, modeIdx] using hall 1 (by norm_num)
    have h3 : bitRead s.buttonWord 3 = true := by
      simpa [lsbOf, lsb, modeIdx] using hall 2 (by norm_num)
    have h2 : bitRead s.buttonWord 2 = true := by
      simpa [lsbOf, lsb, modeIdx] using hall 3 (by norm_num)
    have hi : diluteModeIndex (standardClearGuard s).1.buttonWord = -1 := by
      simp [diluteModeIndex, lsbOf, lsb, discreteBit, septumBit, loopABit, loopBBit,
        t5, t4, t3, t2, h5, h4, h3, h2]
    rw [pressButton_dilute_eq, handleDilute_noMode _ hA1 hi]
    exact ⟨rfl, rfl⟩

theorem C3_dilute_sequence_witness :
    bitRead ({ buttonWord := 65463, LEDWord := 65463, pinsToSet := 7 } :
      MachState).buttonWord (lsbOf analyzeBit) = false ∧
    (pressButton diluteBit { buttonWord := 65463, LEDWord := 65463, pinsToSet := 7 }).1.pinsToSet =
      setPinsDilute2.getD 2 0 :=
  ⟨by decide,
   ((C3_dilute_sequence { buttonWord := 65463, LEDWord := 65463, pinsToSet := 7 }
       (by decide)).1 2 (by norm_num) (by decide)
     (fun j hj => by interval_cases j <;> decide)).1⟩

/-- C4: for every machine state whose `buttonWord` equals none of the 12
single-step table keys, the single-step lookup (and hence the shared
lookup-and-apply section of the loop) leaves `pinsToSet` unchanged: the
previously applied plan remains in effect and no default is substituted. -/
theorem C4_unmatched_lookup (s : MachState) (h : s.buttonWord ∉ buttonSetsOneStep) :
    lookupOneStep s.buttonWord s.pinsToSet = s.pinsToSet ∧
    (applySection s).1.pinsToSet = s.pinsToSet := by
  simp only [buttonSetsOneStep, List.mem_cons, List.not_mem_nil, or_false, not_or] at h
  obtain ⟨h0, h1, h2, h3, h4, h5, h6, h7, h8, h9, h10, h11⟩ := h
  have hl : lookupOneStep s.buttonWord s.pinsToSet = s.pinsToSet := by
    simp only [lookupOneStep, buttonSetsOneStep]
    norm_num [List.foldl, h0, h1, h2, h3, h4, h5, h6, h7, h8, h9, h10, h11]
  exact ⟨hl, by simp [applySection, hl]⟩

theorem C4_unmatched_lookup_witness :
    ((65534 : Nat) ∉ buttonSetsOneStep) ∧
    (lookupOneStep 65534 64144 = 64144 ∧
     (applySection { buttonWord := 65534, LEDWord := 65534, pinsToSet := 64144 }).1.pinsToSet =
       64144) :=
  ⟨by decide,
   C4_unmatched_lookup { buttonWord := 65534, LEDWord := 65534, pinsToSet := 64144 } (by decide)⟩

/-- C5: in every state reachable from the post-initialization state by
processing button presses, `buttonWord` has at most one active bit among
the Action positions 7-9 and at most one among the Mode positions 10-13;
and immediately after processing a Standard press the Standard position 15
is the only active bit of all 16. -/
theorem C5_group_exclusivity (s : MachState) (h : Reachable s) :
    activeCount s.buttonWord actionIdx nActions ≤ 1 ∧
    activeCount s.buttonWord modeIdx nModes ≤ 1 ∧
    activeCount (pressButton standardBit s).1.buttonWord 0 16 = 1 ∧
    bitRead (pressButton standardBit s).1.buttonWord (lsbOf standardBit) = false := by
  obtain ⟨h1, h2⟩ := reachable_counts s h
  have hw : (pressButton standardBit s).1.buttonWord = 65534 := pressButton_bw_15 s
  refine ⟨h1, h2, ?_, ?_⟩ <;> rw [hw] <;> decide

theorem C5_group_exclusivity_witness :
    activeCount setupMachState.buttonWord actionIdx nActions ≤ 1 ∧
    activeCount setupMachState.buttonWord modeIdx nModes ≤ 1 ∧
    activeCount (pressButton standardBit setupMachState).1.buttonWord 0 16 = 1 ∧
    bitRead (pressButton standardBit setupMachState).1.buttonWord (lsbOf standardBit) = false :=
  C5_group_exclusivity setupMachState Reachable.start

/-- C6: whenever a scanned button at any position 7-15 reads active while
the Standard indicator bit is on, the guard sets the Standard bit inactive
in both `buttonWord` and `LEDWord` before the pressed button's
group-specific handling runs (`pressButton` is exactly guard followed by
dispatch), and after processing any non-Standard press the Standard bit is
inactive in both words: the Standard state never persists once a different
input is observed active. -/
theorem C6_standard_clear_guard (s : MachState) (ipin : Nat)
    (h7 : actionIdx ≤ ipin) (h16 : ipin < 16)
    (hOn : bitRead s.LEDWord (lsbOf standardBit) = false) :
    bitRead (standardClearGuard s).1.buttonWord (lsbOf standardBit) = true ∧
    bitRead (standardClearGuard s).1.LEDWord (lsbOf standardBit) = true ∧
    pressButton ipin s =
      ((dispatch ipin (standardClearGuard s).1).1,
       (standardClearGuard s).2 ++ (dispatch ipin (standardClearGuard s).1).2) ∧
    (ipin ≠ standardBit →
      bitRead (pressButton ipin s).1.buttonWord (lsbOf standardBit) = true ∧
      bitRead (pressButton ipin s).1.LEDWord (lsbOf standardBit) = true) := by
  have hcond : (!bitRead s.LEDWord (lsbOf standardBit)) = true := by
    rw [show lsbOf standardBit = 0 from rfl] at hOn ⊢
    rw [hOn]; rfl
  have hgeq : standardClearGuard s =
      ({ s with LEDWord := bitWrite s.LEDWord 0 true, buttonWord := bitWrite s.buttonWord 0 true },
       [Ev.digitalWrite 52 LOW]) := by
    unfold standardClearGuard
    rw [if_pos hcond]; rfl
  have hb : bitRead (standardClearGuard s).1.buttonWord (lsbOf standardBit) = true := by
    rw [hgeq]
    show bitRead (bitWrite s.buttonWord 0 true) (lsbOf standardBit) = true
    rw [show lsbOf standardBit = 0 from rfl]
    simp +decide [bitRead, bitWrite, HIGH, Nat.testBit_or]
  have hl : bitRead (standardClearGuard s).1.LEDWord (lsbOf standardBit) = true := by
    rw [hgeq]
    show bitRead (bitWrite s.LEDWord 0 true) (lsbOf standardBit) = true
    rw [show lsbOf standardBit = 0 from rfl]
    simp +decide [bitRead, bitWrite, HIGH, Nat.testBit_or]
  refine ⟨hb, hl, rfl, fun hne => ?_⟩
  have h7l : 7 ≤ ipin := h7
  interval_cases ipin <;>
    simp_all +decide [pressButton_bw_7, pressButton_lw_7, pressButton_bw_8, pressButton_lw_8,
      pressButton_bw_9, pressButton_lw_9, pressButton_bw_10, pressButton_lw_10,
      pressButton_bw_11, pressButton_lw_11, pressButton_bw_12, pressButton_lw_12,
      pressButton_bw_13, pressButton_lw_13, pressButton_bw_14, pressButton_lw_14,
      bitRead, bitWrite, lsbOf, lsb, standardBit]

theorem C6_standard_clear_guard_witness :
    actionIdx ≤ 7 ∧ (7 : Nat) < 16 ∧
    bitRead ({ buttonWord := 65534, LEDWord := 65534, pinsToSet := 64140 } :
      MachState).LEDWord (lsbOf standardBit) = false ∧
    bitRead (standardClearGuard
      { buttonWord := 65534, LEDWord := 65534, pinsToSet := 64140 }).1.buttonWord
      (lsbOf standardBit) = true :=
  ⟨by decide, by decide, by decide,
   (C6_standard_clear_guard { buttonWord := 65534, LEDWord := 65534, pinsToSet := 64140 } 7
      (by decide) (by decide) (by decide)).1⟩

/-- C7: immediately after initialization (`setup` performs no
`digitalRead`, so this holds for every assignment of boot-time physical
levels to the button inputs): `buttonWord` and `LEDWord` both equal the
Startup constant 65399, the Load (position 8) and Loop-A (position 12)
indicator pins are left driven HIGH (on), and the Startup plan 64144 is
adopted as `pinsToSet` and applied via `setOutputPins` as the final 16
writes of the setup trace. -/
theorem C7_startup_determinism (initPins : Nat → Bool) :
    setupRun.1 = { buttonWord := buttonSetStartup, LEDWord := buttonSetStartup,
                   pinsToSet := setPinsStartup } ∧
    setupMachState.buttonWord = 65399 ∧ setupMachState.LEDWord = 65399 ∧
    setupMachState.pinsToSet = 64144 ∧
    applyWrites setupRun.2 initPins (LEDPins.getD loadBit 0) = HIGH ∧
    applyWrites setupRun.2 initPins (LEDPins.getD loopABit 0) = HIGH ∧
    setupRun.2.drop 33 = setOutputPins setPinsStartup :=
  ⟨rfl, rfl, rfl, rfl, rfl, rfl, by decide⟩

/-- C8: for each index `k < 12`, running the single-step lookup with
`buttonWord` equal to `buttonSetsOneStep[k]` yields exactly
`setPinsOneStep[k]`, whatever plan was previously in effect; and the 12
stored keys are pairwise distinct, so at most one row matches and the
scan order cannot affect the result. -/
theorem C8_onestep_table (k : Nat) (hk : k < 12) (p0 : Nat) :
    lookupOneStep (buttonSetsOneStep.getD k 0) p0 = setPinsOneStep.getD k 0 ∧
    buttonSetsOneStep.Nodup := by
  refine ⟨?_, by decide⟩
  interval_cases k <;> rfl

theorem C8_onestep_table_witness :
    (0 : Nat) < 12 ∧
    (lookupOneStep (buttonSetsOneStep.getD 0 0) 64144 = setPinsOneStep.getD 0 0 ∧
     buttonSetsOneStep.Nodup) :=
  ⟨by decide, C8_onestep_table 0 (by decide) 64144⟩

/-- C9: in every reachable state `LEDWord` equals `buttonWord` bit-for-bit
(each press handler makes identical bit changes to both masks), and the
dilute handler changes neither word. -/
theorem C9_indicator_mirror (s : MachState) (h : Reachable s) :
    s.LEDWord = s.buttonWord ∧
    ∀ t : MachState,
      (handleDilute t).1.buttonWord = t.buttonWord ∧ (handleDilute t).1.LEDWord = t.LEDWord :=
  ⟨reachable_words_eq s h, fun t => ⟨handleDilute_bw t, handleDilute_lw t⟩⟩

theorem C9_indicator_mirror_witness :
    setupMachState.LEDWord = setupMachState.buttonWord :=
  (C9_indicator_mirror setupMachState Reachable.start).1

/-- C10: for every mode index `m < 4`, the dilute phase-1 plan equals the
single-step plan at index `m` (the Purge row for that mode) and the dilute
phase-2 plan equals the single-step plan at index `8 + m` (the Analyze row
for that mode), so a completed dilute sequence ends in the same actuation
configuration as a single-step Analyze command for the current mode. -/
theorem C10_dilute_plan_reuse (m : Nat) (hm : m < 4) :
    setPinsDilute1.getD m 0 = setPinsOneStep.getD m 0 ∧
    setPinsDilute2.getD m 0 = setPinsOneStep.getD (8 + m) 0 := by
  interval_cases m <;> exact ⟨rfl, rfl⟩

theorem C10_dilute_plan_reuse_witness :
    (2 : Nat) < 4 ∧
    (setPinsDilute1.getD 2 0 = setPinsOneStep.getD 2 0 ∧
     setPinsDilute2.getD 2 0 = setPinsOneStep.getD (8 + 2) 0) :=
  ⟨by decide, C10_dilute_plan_reuse 2 (by decide)⟩

end DSAM
